import Mathlib

/-!
Verification of the BibKat library-integration core against its
natural-language specification.

The Python sources under custom_components/bibkat are shallowly embedded:
pure computations become Lean functions, HTML / HTTP inputs become explicit
record values describing what the BeautifulSoup / aiohttp layer would have
produced (a regex match becomes the matched capture groups, an element query
becomes the queried attribute values), and Python `date` objects become a
`PyDate` structure whose ordinal mirrors `date.toordinal`.  Computed renewal
dates, which the code only ever subtracts, compares and formats, are carried
as their proleptic-Gregorian ordinals (`Int`).
-/

/-- Calendar date, mirroring Python `datetime.date` (year, month, day). -/
structure PyDate where
  year : Nat
  month : Nat
  day : Nat
deriving DecidableEq, Repr

/-- Gregorian leap-year test, as in Python `calendar.isleap`. -/
def isLeapYear (y : Nat) : Bool :=
  (y % 4 == 0 && y % 100 != 0) || (y % 400 == 0)

/-- Number of days in a month of a given year (0 for an invalid month). -/
def daysInMonth (y m : Nat) : Nat :=
  match m with
  | 1 => 31
  | 2 => if isLeapYear y then 29 else 28
  | 3 => 31
  | 4 => 30
  | 5 => 31
  | 6 => 30
  | 7 => 31
  | 8 => 31
  | 9 => 30
  | 10 => 31
  | 11 => 30
  | 12 => 31
  | _ => 0

/-- Days in the year before the first day of month `m`. -/
def daysBeforeMonth (y : Nat) : Nat → Nat
  | 0 => 0
  | m + 1 => daysBeforeMonth y m + daysInMonth y m

/-- Total number of days of a year. -/
def daysInYear (y : Nat) : Nat :=
  if isLeapYear y then 366 else 365

/-- Days before January 1st of year `y`, as in Python `date.toordinal`. -/
def daysBeforeYear (y : Nat) : Nat :=
  365 * (y - 1) + (y - 1) / 4 - (y - 1) / 100 + (y - 1) / 400

/-- Proleptic-Gregorian ordinal of a date, as Python `date.toordinal`:
`date(1, 1, 1).toordinal() = 1`. -/
def toOrdinal (d : PyDate) : Nat :=
  daysBeforeYear d.year + daysBeforeMonth d.year d.month + d.day

/-- The range check performed by the Python `date` constructor. -/
def PyDate.valid (p : PyDate) : Prop :=
  1 ≤ p.year ∧ p.year ≤ 9999 ∧ 1 ≤ p.month ∧ p.month ≤ 12 ∧
    1 ≤ p.day ∧ p.day ≤ daysInMonth p.year p.month

instance (p : PyDate) : Decidable p.valid := by
  unfold PyDate.valid; infer_instance

/-- Python `date(y, m, d)`: `some` on success, `none` when the constructor
would raise `ValueError` (the callers catch that exception). -/
def mkDate (y m d : Nat) : Option PyDate :=
  if 1 ≤ y ∧ y ≤ 9999 ∧ 1 ≤ m ∧ m ≤ 12 ∧ 1 ≤ d ∧ d ≤ daysInMonth y m then
    some ⟨y, m, d⟩
  else none

/-- Python date comparison `a < b` (lexicographic on year, month, day). -/
def pyDateLt (a b : PyDate) : Bool :=
  decide (a.year < b.year) ||
    (a.year == b.year &&
      (decide (a.month < b.month) ||
        (a.month == b.month && decide (a.day < b.day))))

/-- Python `(a - b).days` for two dates. -/
def pyDateSubDays (a b : PyDate) : Int :=
  (toOrdinal a : Int) - (toOrdinal b : Int)

/-- Whether the first character list starts with the second. -/
def charsStartWith : List Char → List Char → Bool
  | _, [] => true
  | [], _ :: _ => false
  | c :: cs, p :: ps => c == p && charsStartWith cs ps

/-- Left-to-right replacement of every occurrence of `pat` by `rep`,
with explicit fuel (one unit per consumed character suffices). -/
def replaceChars (pat rep : List Char) : List Char → Nat → List Char
  | l, 0 => l
  | [], _ + 1 => []
  | c :: cs, fuel + 1 =>
    if pat.isEmpty then c :: cs
    else if charsStartWith (c :: cs) pat then
      rep ++ replaceChars pat rep ((c :: cs).drop pat.length) fuel
    else c :: replaceChars pat rep cs fuel

/-- Python `str.strip()`: remove leading and trailing whitespace. -/
def pyStrip (s : String) : String :=
  ⟨((s.data.dropWhile Char.isWhitespace).reverse.dropWhile
      Char.isWhitespace).reverse⟩

/-- Python `str.startswith(p)`. -/
def pyStartsWith (s p : String) : Bool := charsStartWith s.data p.data

/-- Python `str.replace(pat, rep)` (all occurrences). -/
def pyReplace (s pat rep : String) : String :=
  ⟨replaceChars pat.data rep.data s.data s.data.length⟩

/-- Python `str.rstrip('/')`. -/
def pyRStripSlash (s : String) : String :=
  ⟨(s.data.reverse.dropWhile (· = '/')).reverse⟩

/-!
Date parsing (BibKatAPI.parse_german_date).  The Python function runs two
regular expressions over the raw text; a `RegexView` records what those
regexes would have yielded on the text: `dm` is the match of
`(\d+)\.\s*(\w+\.?)` (day and month token), `full` the match of
`(\d{1,2})\.(\d{1,2})\.(\d{4})`.
-/

/-- Outcome of the two regex searches of parse_german_date on a text. -/
structure RegexView where
  dm : Option (Nat × String)
  full : Option (Nat × Nat × Nat)
deriving DecidableEq, Repr

/-- German month-name table of parse_german_date. -/
def months : List (String × Nat) :=
  [("Januar", 1), ("Februar", 2), ("März", 3), ("April", 4),
   ("Mai", 5), ("Juni", 6), ("Juli", 7), ("August", 8),
   ("September", 9), ("Oktober", 10), ("November", 11), ("Dezember", 12)]

/-- Abbreviated month-name table of parse_german_date. -/
def short_months : List (String × Nat) :=
  [("Jan.", 1), ("Feb.", 2), ("Mär.", 3), ("Apr.", 4),
   ("Mai", 5), ("Jun.", 6), ("Jul.", 7), ("Aug.", 8),
   ("Sep.", 9), ("Okt.", 10), ("Nov.", 11), ("Dez.", 12)]

/-- Python `months.get(month_str) or short_months.get(month_str)`. -/
def months_lookup (s : String) : Option Nat :=
  (months.lookup s).orElse fun _ => short_months.lookup s

/-- Day-plus-month-name branch of parse_german_date: build the date in the
current year; if it lies strictly in the past by more than 60 days, assume
next year.  A `ValueError` from the `date` constructor propagates to the
caller's `except` and yields `none`. -/
def parse_day_month (today : PyDate) (d m : Nat) : Option PyDate :=
  match mkDate today.year m d with
  | none => none
  | some parsed =>
    if pyDateLt parsed today then
      if pyDateSubDays today parsed > 60 then mkDate (today.year + 1) m d
      else some parsed
    else some parsed

/-- Fully numeric branch of parse_german_date (`06.07.2025`). -/
def parse_full_date (t : RegexView) : Option PyDate :=
  match t.full with
  | some (d, m, y) => mkDate y m d
  | none => none

/-- BibKatAPI.parse_german_date.  Falls through to the numeric format when
the day-month regex does not match or the month token is unknown. -/
def parse_german_date (today : PyDate) (t : RegexView) : Option PyDate :=
  match t.dm with
  | some (d, mstr) =>
    match months_lookup mstr with
    | some m => parse_day_month today d m
    | none => parse_full_date t
  | none => parse_full_date t

/-- BibKatAPI._calculate_days_remaining, applied to the due-date text:
days until the due date clamped at zero, plus the parsed ISO date. -/
def calculate_days_remaining (today : PyDate) (t : RegexView) :
    Int × Option PyDate :=
  match parse_german_date today t with
  | some p => (max 0 (pyDateSubDays p today), some p)
  | none => (0, none)

/-!
Renewal rules (renewal_rules.py, RenewalRulesManager).  The `_rules` dict is
embedded as a function from library URL to the stored rule; dates are carried
as ordinals.
-/

/-- One stored rule: offset in days before the due date, and the day the rule
was last updated. -/
structure RenewalRule where
  renewal_offset_days : Int
  last_updated : Int
deriving DecidableEq, Repr

/-- The rules dictionary, keyed by library URL. -/
def RulesStore : Type := String → Option RenewalRule

/-- RenewalRulesManager.get_renewal_offset_days. -/
def get_renewal_offset_days (store : RulesStore) (library_url : String) :
    Option Int :=
  (store library_url).map (·.renewal_offset_days)

/-- RenewalRulesManager.calculate_renewal_date: due date minus the stored
offset, or `none` when the library has no rule. -/
def calculate_renewal_date (store : RulesStore) (library_url : String)
    (due_date : Int) : Option Int :=
  match get_renewal_offset_days store library_url with
  | some off => some (due_date - off)
  | none => none

/-- RenewalRulesManager.update_rules: overwrite the library's rule. -/
def update_rules (store : RulesStore) (library_url : String)
    (renewal_offset_days : Int) (today : Int) : RulesStore :=
  fun u => if u = library_url then
    some ⟨renewal_offset_days, today⟩
  else store u

/-- RenewalRulesManager.calculate_offset_from_dates:
`(due_date - renewal_date).days`. -/
def calculate_offset_from_dates (due_date renewal_date : Int) : Int :=
  due_date - renewal_date

/-- The empty rules store (no library has a rule yet). -/
def emptyRules : RulesStore := fun _ => none

/-!
Listing-item extraction (BibKatAPI._extract_media_info).  An `ItemElem`
records what the BeautifulSoup queries on one `div.item` element would
return: attribute values default to `""` exactly as `item.get(attr, '')`
does, optional sub-elements become `Option` fields, and the due-date regex
outcome is a `RegexView`.
-/

/-- The `div.item-account-status` element: the `title` attribute (if any),
the visible text, and the regex view of the due-date portion of
`title`-or-text (after the `'bis:'` split in _calculate_days_remaining). -/
structure StatusElem where
  titleAttr : Option String
  text : String
  dateTok : RegexView
deriving DecidableEq, Repr

/-- The element carrying `data-action="renew"` inside `div.item-actions`,
when present: its `data-media-id` attribute (`""` if falsy) and the digits
captured from its `onclick` handler (when `onclick` is truthy and the regex
matches). -/
structure RenewActionElem where
  dataMediaId : String
  onclickDigits : Option String
deriving DecidableEq, Repr

/-- One `div.item` element of a listing page. -/
structure ItemElem where
  idAttr : String
  dataId : String
  dataMediaId : String
  extraDataId : String
  titleElem : Option (String × Option String)
  itemLink : Option (String × Option String)
  authorText : Option String
  status : Option StatusElem
  renewAction : Option RenewActionElem
deriving DecidableEq, Repr

/-- Normalized media record built by _extract_media_info.  Renewal dates are
carried as ordinals (the code only compares and formats them). -/
structure MediaInfo where
  media_id : String
  title : String
  author : String
  due_date : String
  due_date_iso : Option PyDate
  renewable : Bool
  days_remaining : Int
  detail_url : Option String
  renewal_date_iso : Option Int
  is_renewable_now : Bool
deriving DecidableEq, Repr

/-- The media-id attribute fallback chain at the top of
_extract_media_info. -/
def extract_media_id (it : ItemElem) : String :=
  let id0 := it.idAttr
  let id1 := if id0 ≠ "" ∧ pyStartsWith id0 "media-" then
    pyReplace id0 "media-" "" else id0
  let id2 := if id1 = "" then it.dataId else id1
  let id3 := if id2 = "" then it.dataMediaId else id2
  if id3 = "" then it.extraDataId else id3

/-- Title and detail link: `div.item-title` (with its inner link) first,
else an `a.item-link`; no title invalidates the item. -/
def extract_title (base_url : String) (it : ItemElem) :
    Option (String × Option String) :=
  match it.titleElem with
  | some (txt, href) =>
    some (pyStrip txt, href.bind (fun h =>
      if h = "" then none else some (pyRStripSlash base_url ++ h)))
  | none =>
    match it.itemLink with
    | some (txt, href) =>
      some (pyStrip txt, href.bind (fun h =>
        if h = "" then none else some (pyRStripSlash base_url ++ h)))
    | none => none

/-- Due-date processing of _extract_media_info: for a present status
element, the `title`-attribute-or-text string (stripped) together with
_calculate_days_remaining applied to it; the initialized defaults
otherwise. -/
def extract_due (today : PyDate) (st : Option StatusElem) :
    String × Int × Option PyDate :=
  match st with
  | some s =>
    let due_text := s.titleAttr.getD s.text
    let (dr, iso) := calculate_days_remaining today s.dateTok
    (pyStrip due_text, dr, iso)
  | none => ("", 0, none)

/-- Rules-based renewal-date block of _extract_media_info: when a rules
manager and a parsed due date are present and the library has a stored
rule, the renewal date and `date.today() >= renewal_date`. -/
def rules_renewal (today : PyDate) (mgr : Option RulesStore)
    (base_url : String) (due_date_iso : Option PyDate) : Option Int × Bool :=
  match mgr, due_date_iso with
  | some rules, some due =>
    match calculate_renewal_date rules base_url (toOrdinal due) with
    | some rd => (some rd, decide ((toOrdinal today : Int) ≥ rd))
    | none => (none, false)
  | _, _ => (none, false)

/-- Media-id recovery from the renew-action element, used when the id is
still missing when the action is found. -/
def renew_action_id (mid0 : String) (ra : RenewActionElem) : String :=
  if mid0 = "" then
    (if ra.dataMediaId ≠ "" then ra.dataMediaId
     else ra.onclickDigits.getD "")
  else mid0

/-- Renew-action block of _extract_media_info: whether the item is
renewable, the possibly recovered media id, and `is_renewable_now` (set to
true with the action, since the interface only shows the button when
renewable; otherwise left at the rules-computed value). -/
def renew_triple (mid0 : String) (now_from_rules : Bool)
    (ra : Option RenewActionElem) : Bool × String × Bool :=
  match ra with
  | some r => (true, renew_action_id mid0 r, true)
  | none => (false, mid0, now_from_rules)

/-- BibKatAPI._extract_media_info.  `mgr` is the optional renewal-rules
manager, `md5hex8` stands for the 8-hex-digit MD5 digest used to synthesize
ids.  Returns `none` when no title is found. -/
def extract_media_info (today : PyDate) (mgr : Option RulesStore)
    (base_url : String) (md5hex8 : String → String) (it : ItemElem) :
    Option MediaInfo :=
  let mid0 := extract_media_id it
  match extract_title base_url it with
  | none => none
  | some (title, detail_url) =>
    let author := (it.authorText.map pyStrip).getD ""
    let dd := extract_due today it.status
    let rr := rules_renewal today mgr base_url dd.2.2
    let rt := renew_triple mid0 rr.2 it.renewAction
    let media_id := if rt.2.1 = "" ∧ title ≠ "" then
      "gen_" ++ md5hex8 (title ++ "_" ++ author ++ "_" ++ dd.1)
    else rt.2.1
    some { media_id := media_id, title := title, author := author,
           due_date := dd.1, due_date_iso := dd.2.2,
           renewable := rt.1, days_remaining := dd.2.1,
           detail_url := detail_url, renewal_date_iso := rr.1,
           is_renewable_now := rt.2.2 }

/-!
Detail pages (BibKatAPI._fetch_media_details) and the in-place
`media.update(details)` merge done in get_borrowed_media.
-/

/-- Outcome of one network interaction: an exception, or a response. -/
inductive NetResult (α : Type) where
  | raise (msg : String)
  | resp (a : α)
deriving DecidableEq, Repr

/-- What a media detail page yields: the HTTP status, and — when a
"kann ab dem ... online verlängert werden" text node exists — the outcome of
the `ab dem (...)` regex on it (`some none`: text found, regex failed). -/
structure DetailPage where
  status : Nat
  renewalText : Option (Option RegexView)
deriving DecidableEq, Repr

/-- The keys of the `details` dict of _fetch_media_details that
`media.update(details)` writes back into the listing record. -/
structure DetailsOut where
  renewal_date_iso : Option Int
  is_renewable_now : Bool
deriving DecidableEq, Repr

/-- BibKatAPI._fetch_media_details: any exception or non-200 status leaves
the defaults untouched. -/
def fetch_media_details (today : PyDate) (page : NetResult DetailPage) :
    DetailsOut :=
  match page with
  | .raise _ => ⟨none, false⟩
  | .resp p =>
    if p.status ≠ 200 then ⟨none, false⟩
    else match p.renewalText with
      | some (some rv) =>
        match parse_german_date today rv with
        | some pd =>
          ⟨some (toOrdinal pd), decide ((toOrdinal today : Int) ≥ (toOrdinal pd : Int))⟩
        | none => ⟨none, false⟩
      | _ => ⟨none, false⟩

/-- Python `media.update(details)` in get_borrowed_media: the details dict always
carries `renewal_date`, `renewal_date_iso` and `is_renewable_now`, so those
keys are overwritten. -/
def update_details (m : MediaInfo) (d : DetailsOut) : MediaInfo :=
  { m with renewal_date_iso := d.renewal_date_iso,
           is_renewable_now := d.is_renewable_now }

/-!
Merging the main-page and family-page listings
(BibKatAPI.get_borrowed_media, first two loops).  `media_by_id` is a dict
whose values alias the dicts stored in `all_media`; since the dict always
holds the most recently written record for an id, mutating
`media_by_id[mid]['found_on']` mutates the last element of `all_media`
carrying that id.
-/

/-- A listing record together with its `found_on` page contexts. -/
structure MergedMedia where
  info : MediaInfo
  found_on : List String
deriving DecidableEq, Repr

/-- Append `"family"` to the `found_on` of the last record with the given
id (the record the `media_by_id` dict aliases). -/
def append_family_found_on : List MergedMedia → String → List MergedMedia
  | [], _ => []
  | r :: rs, mid =>
    if rs.any (fun x => x.info.media_id == mid) then
      r :: append_family_found_on rs mid
    else if r.info.media_id == mid then
      { r with found_on := r.found_on ++ ["family"] } :: rs
    else r :: append_family_found_on rs mid

/-- Processing one family-page record in get_borrowed_media: skip when the
id is falsy, mark an already-seen id, append a new record otherwise. -/
def merge_family_step (acc : List MergedMedia) (m : MediaInfo) :
    List MergedMedia :=
  if m.media_id = "" then acc
  else if acc.any (fun r => r.info.media_id == m.media_id) then
    append_family_found_on acc m.media_id
  else acc ++ [⟨m, ["family"]⟩]

/-- The merged `all_media` list of get_borrowed_media: main-page records
(with truthy ids) tagged `found_on = ["main"]`, then the family records
folded in. -/
def get_borrowed_media_merge (main family : List MediaInfo) :
    List MergedMedia :=
  family.foldl merge_family_step
    ((main.filter (fun m => !(m.media_id == ""))).map
      (fun m => ⟨m, ["main"]⟩))

/-!
Family-page sectioning (BibKatAPI._get_media_from_page, family branch).
`listing.find_all(['h4', 'div'])` yields headers and item divs in document
order; the walk tracks the account number of the most recent
"Konto Nr. <N>" header.
-/

/-- One element of a family listing: an `h4.reader-content-title` header
(`konto` is the `Konto Nr. (\d+)` regex match on its text), or a `div.item`
(with its `item-variant-message` flag). -/
inductive FamilyElem where
  | header (konto : Option String)
  | item (isMessage : Bool) (elem : ItemElem)
deriving DecidableEq, Repr

/-- A family-page media record with the owner attribution added by the
family branch of _get_media_from_page. -/
structure PageMedia where
  info : MediaInfo
  account : String
  owner_name : String
  owner_number : String
deriving DecidableEq, Repr

/-- The family-branch walk of _get_media_from_page: headers update the
current account number; item divs are extracted and kept only when a
current account exists, they are not message items, and they carry a due
date (items without one are reservations, left to the reservation
parser). -/
def family_walk (today : PyDate) (mgr : Option RulesStore)
    (base_url : String) (md5hex8 : String → String) :
    Option String → List FamilyElem → List PageMedia
  | _, [] => []
  | cur, FamilyElem.header k :: rest =>
    family_walk today mgr base_url md5hex8
      (match k with | some n => some n | none => cur) rest
  | cur, FamilyElem.item isMsg el :: rest =>
    match cur with
    | some acct =>
      if isMsg then family_walk today mgr base_url md5hex8 cur rest
      else
        match extract_media_info today mgr base_url md5hex8 el with
        | some mi =>
          if mi.due_date ≠ "" then
            ⟨mi, "family", "Leser " ++ acct, acct⟩ ::
              family_walk today mgr base_url md5hex8 cur rest
          else family_walk today mgr base_url md5hex8 cur rest
        | none => family_walk today mgr base_url md5hex8 cur rest
    | none => family_walk today mgr base_url md5hex8 cur rest

/-!
Login-response classification
(BibKatAuthHelper._create_authenticated_session, after a 200 POST).
-/

/-- What the success/error probes on the login response body would find. -/
structure LoginResponseView where
  body_has_logout : Bool
  body_has_abmelden : Bool
  body_has_reader_view : Bool
  has_reader_account_div : Bool
  has_account_info_div : Bool
  has_reader_content_div : Bool
  has_reader_listing_div : Bool
  error_container_text : Option String
  has_login_form : Bool
deriving DecidableEq, Repr

/-- The success/failure classification of the login response: `ok` when a
success indicator is present, otherwise the `ConfigEntryAuthFailed`
message. `error_container_text` is the text of the first
alert-danger/error-message/login-error div, else of any alert div;
`has_login_form` is true when a `form[action='/reader/']` or an
`input[name='username']` is present. -/
def classify_login_response (r : LoginResponseView) : Except String Unit :=
  if r.body_has_logout || r.body_has_abmelden || r.body_has_reader_view then
    Except.ok ()
  else if r.has_reader_account_div || r.has_account_info_div then
    Except.ok ()
  else if r.has_reader_content_div || r.has_reader_listing_div then
    Except.ok ()
  else
    match r.error_container_text with
    | some msg => Except.error ("Login failed: " ++ msg)
    | none =>
      if r.has_login_form then
        Except.error
          "Login failed: Still on login page - credentials may be incorrect"
      else
        Except.error
          "Login failed: Login response unclear - no success indicators found"

/-!
Detail-fetch throttling (BibKatAPI.get_borrowed_media, lines 146-195, and
const.DETAIL_FETCH_INTERVAL).  Timestamps are in seconds.
-/

/-- const.DETAIL_FETCH_INTERVAL = timedelta(hours=24), in seconds. -/
def DETAIL_FETCH_INTERVAL : Int := 24 * 60 * 60

/-- The `_last_full_detail_fetch` gate of get_borrowed_media: decide whether
this cycle performs the full detail fetch, and the updated timestamp. -/
def detail_fetch_gate (last_full_detail_fetch : Option Int) (now : Int) :
    Bool × Option Int :=
  match last_full_detail_fetch with
  | none => (true, some now)
  | some t =>
    if now - t ≥ DETAIL_FETCH_INTERVAL then (true, some now)
    else (false, some t)

/-- The `items_to_fetch_details` selection: renewable items with a detail
URL, and only during a scheduled full fetch. -/
def items_to_fetch_details (should_fetch_all_details : Bool)
    (all_media : List MediaInfo) : List MediaInfo :=
  if should_fetch_all_details then
    all_media.filter (fun m => m.renewable && !(m.detail_url.getD "" == ""))
  else []

/-!
The renewal engine (BibKatAPI._renew_single_media, _extract_renewal_date,
renew_media) and the coordinator wrapper
(BibKatDataUpdateCoordinator.async_renew_media).
-/

/-- One action offered by the renewal modal envelope. -/
structure RenewActionDesc where
  func : String
  method : String
deriving DecidableEq, Repr

/-- The JSON envelope of the step-1 GET on the renew API. -/
structure ModalResponse where
  status : Nat
  metaSuccess : Bool
  actions : List RenewActionDesc
deriving DecidableEq, Repr

/-- The JSON envelope of the step-2 POST on the renew API.  `dataMessage`
is `data.message` when present. -/
structure PostResponse where
  status : Nat
  metaSuccess : Bool
  dataMessage : Option String
deriving DecidableEq, Repr

/-- The result dict of a renewal call: always a success flag and a
human-readable message, plus the optional renewal-date fields (as
ordinals) and their source. -/
structure RenewResult where
  success : Bool
  message : String
  renewal_date : Option Int := none
  renewal_date_iso : Option Int := none
  source : Option String := none
deriving DecidableEq, Repr

/-- BibKatAPI._renew_single_media: the two-step renewal protocol.  Every
branch — including any exception raised while talking to the site —
produces a `RenewResult`. -/
def renew_single_media (modal : NetResult ModalResponse)
    (post : NetResult PostResponse) : RenewResult :=
  match modal with
  | .raise e =>
    { success := false, message := "Fehler bei der Verlängerung: " ++ e }
  | .resp m =>
    if m.status ≠ 200 then
      { success := false,
        message := "Fehler beim Abrufen des Verlängerungsdialogs" }
    else if !m.metaSuccess then
      { success := false, message := "Verlängerung fehlgeschlagen" }
    else
      match m.actions.find? (fun a => a.func == "renew" && a.method == "POST") with
      | none =>
        { success := false, message := "Keine Verlängerungsaktion gefunden" }
      | some _ =>
        match post with
        | .raise e =>
          { success := false,
            message := "Fehler bei der Verlängerung: " ++ e }
        | .resp p =>
          if p.status = 200 then
            if p.metaSuccess then
              { success := true, message := "Medium erfolgreich verlängert" }
            else
              { success := false,
                message := p.dataMessage.getD "Verlängerung fehlgeschlagen" }
          else
            { success := false,
              message := "Verlängerung fehlgeschlagen (Status " ++
                toString p.status ++ ")" }

/-- What the optional browser-automation fallback of _extract_renewal_date
can amount to: the feature is off, Playwright is missing, the extraction
raised, or it returned a result dict. -/
inductive BrowserProbe where
  | disabled
  | unavailable
  | failed (e : String)
  | result (success : Bool) (renewal_date : Option Int)
      (renewal_date_iso : Option Int) (renewal_offset_days : Option Int)
deriving DecidableEq, Repr

/-- The result dict of _extract_renewal_date. -/
structure DateResult where
  success : Bool
  renewal_date : Option Int := none
  renewal_date_iso : Option Int := none
  source : Option String := none
  message : Option String := none
deriving DecidableEq, Repr

/-- BibKatAPI._extract_renewal_date: browser probe first, then the stored
renewal rule, then the hardcoded `due_date - 6 days` fallback.  The rules
loop returns on the first listed media with this id and a due date iff the
library has a stored offset, so it is rendered with `find?`. -/
def extract_renewal_date (last_media_list : List MediaInfo)
    (mgr : Option RulesStore) (base_url : String) (probe : BrowserProbe)
    (media_id : String) : DateResult :=
  match probe with
  | .result true rd (some iso) _ =>
    { success := true, renewal_date := rd, renewal_date_iso := some iso,
      source := some "browser" }
  | _ =>
    let found := last_media_list.find?
      (fun m => m.media_id == media_id && m.due_date_iso.isSome)
    let fromRules : Option DateResult :=
      match mgr, found with
      | some rules, some m =>
        match m.due_date_iso with
        | some due =>
          (calculate_renewal_date rules base_url (toOrdinal due)).map
            (fun rd => { success := true, renewal_date := some rd,
                         renewal_date_iso := some rd, source := some "rules" })
        | none => none
      | _, _ => none
    match fromRules with
    | some r => r
    | none =>
      match found with
      | some m =>
        match m.due_date_iso with
        | some due =>
          { success := true,
            renewal_date := some ((toOrdinal due : Int) - 6),
            renewal_date_iso := some ((toOrdinal due : Int) - 6),
            source := some "fallback" }
        | none =>
          { success := false,
            message := some "Verlängerungsdatum konnte nicht ermittelt werden" }
      | none =>
        { success := false,
          message := some "Verlängerungsdatum konnte nicht ermittelt werden" }

/-- Render an optional ordinal the way the Python f-string renders the
optional `renewal_date` value. -/
def fmtOptDate (d : Option Int) : String :=
  match d with
  | some n => toString n
  | none => "None"

/-- BibKatAPI.renew_media: look the item up in `_last_media_list`; renew it
when `is_renewable_now`, otherwise turn the extracted renewal date into a
not-yet-renewable result. -/
def renew_media (last_media_list : List MediaInfo) (mgr : Option RulesStore)
    (base_url : String) (probe : BrowserProbe)
    (modal : NetResult ModalResponse) (post : NetResult PostResponse)
    (media_id : String) : RenewResult :=
  match last_media_list.find? (fun m => m.media_id == media_id) with
  | none => { success := false, message := "Medium nicht gefunden" }
  | some mi =>
    if mi.is_renewable_now then renew_single_media modal post
    else
      let dr := extract_renewal_date last_media_list mgr base_url probe media_id
      if dr.success then
        { success := false,
          message := "Medium kann erst ab dem " ++ fmtOptDate dr.renewal_date
            ++ " verlängert werden",
          renewal_date := dr.renewal_date,
          renewal_date_iso := dr.renewal_date_iso,
          source := some (dr.source.getD "unknown") }
      else
        { success := false,
          message :=
            dr.message.getD "Verlängerungsdatum konnte nicht ermittelt werden" }

/-- The coordinator-level result of async_renew_media. -/
structure CoordRenewResult where
  success : Bool
  message : String
deriving DecidableEq, Repr

/-- The try/except around `api.renew_media` in
BibKatDataUpdateCoordinator.async_renew_media: an exception from the API
call becomes a failure result with a descriptive message. -/
def coordinator_renew (call : NetResult RenewResult) : CoordRenewResult :=
  match call with
  | .raise e =>
    { success := false, message := "Fehler bei der Verlängerung: " ++ e }
  | .resp r =>
    if r.success then
      { success := true, message := "Erfolgreich verlängert bis " }
    else
      { success := false,
        message := r.message ++
          (match r.renewal_date with
           | some d => ". Verlängerbar ab " ++ toString d
           | none => "") }

theorem mkDate_eq_some {y m d : Nat} {p : PyDate} (h : mkDate y m d = some p) :
    p = ⟨y, m, d⟩ ∧ p.valid := by
  unfold mkDate at h
  split at h
  · cases h
    exact ⟨rfl, by unfold PyDate.valid; simp_all⟩
  · cases h

theorem daysBeforeMonth_mono (y : Nat) {m1 m2 : Nat} (h : m1 ≤ m2) :
    daysBeforeMonth y m1 ≤ daysBeforeMonth y m2 := by
  induction m2 with
  | zero => simp_all
  | succ m ih =>
    rcases Nat.lt_or_ge m1 (m + 1) with hlt | hge
    · exact le_trans (ih (Nat.lt_succ_iff.mp hlt))
        (Nat.le_add_right _ _)
    · have : m1 = m + 1 := le_antisymm h hge
      subst this; exact le_refl _

theorem daysBeforeMonth_thirteen (y : Nat) :
    daysBeforeMonth y 13 = daysInYear y := by
  cases h : isLeapYear y <;>
    simp [daysBeforeMonth, daysInMonth, daysInYear, h]

theorem daysBeforeMonth_add_daysInMonth_le (y : Nat) {m : Nat}
    (h1 : 1 ≤ m) (h2 : m ≤ 12) :
    daysBeforeMonth y m + daysInMonth y m ≤ daysInYear y := by
  have : daysBeforeMonth y (m + 1) ≤ daysBeforeMonth y 13 :=
    daysBeforeMonth_mono y (by omega)
  rw [daysBeforeMonth_thirteen] at this
  simpa [daysBeforeMonth] using this

theorem isLeapYear_iff (y : Nat) :
    isLeapYear y = true ↔ ((y % 4 = 0 ∧ y % 100 ≠ 0) ∨ y % 400 = 0) := by
  unfold isLeapYear
  simp [Bool.or_eq_true, Bool.and_eq_true, beq_iff_eq, bne_iff_ne]

set_option maxHeartbeats 1000000 in
theorem daysBeforeYear_succ {y : Nat} (hy : 1 ≤ y) :
    daysBeforeYear (y + 1) = daysBeforeYear y + daysInYear y := by
  obtain ⟨z, rfl⟩ : ∃ z, y = z + 1 := ⟨y - 1, by omega⟩
  unfold daysBeforeYear daysInYear
  simp only [Nat.add_sub_cancel]
  by_cases h : isLeapYear (z + 1) = true
  · rw [if_pos h]
    rw [isLeapYear_iff] at h
    omega
  · rw [if_neg h]
    rw [isLeapYear_iff] at h
    push_neg at h
    omega

theorem daysBeforeYear_le_succ (y : Nat) :
    daysBeforeYear y ≤ daysBeforeYear (y + 1) := by
  rcases Nat.eq_zero_or_pos y with h | h
  · subst h; simp [daysBeforeYear]
  · rw [daysBeforeYear_succ h]; omega

theorem daysBeforeYear_mono {y1 y2 : Nat} (h : y1 ≤ y2) :
    daysBeforeYear y1 ≤ daysBeforeYear y2 := by
  induction y2 with
  | zero => simp_all
  | succ y ih =>
    rcases Nat.lt_or_ge y1 (y + 1) with hlt | hge
    · exact le_trans (ih (Nat.lt_succ_iff.mp hlt)) (daysBeforeYear_le_succ y)
    · have : y1 = y + 1 := le_antisymm h hge
      subst this; exact le_refl _

theorem toOrdinal_lt_of_year_lt {a b : PyDate} (ha : a.valid) (hb : b.valid)
    (h : a.year < b.year) : toOrdinal a < toOrdinal b := by
  obtain ⟨hay, _, ham1, ham2, had1, had2⟩ := ha
  obtain ⟨hby, _, _, _, hbd1, _⟩ := hb
  have h1 : toOrdinal a ≤ daysBeforeYear a.year + daysInYear a.year := by
    unfold toOrdinal
    have := daysBeforeMonth_add_daysInMonth_le a.year ham1 ham2
    omega
  have h2 : daysBeforeYear a.year + daysInYear a.year = daysBeforeYear (a.year + 1) :=
    (daysBeforeYear_succ hay).symm
  have h3 : daysBeforeYear (a.year + 1) ≤ daysBeforeYear b.year :=
    daysBeforeYear_mono h
  have h4 : daysBeforeYear b.year < toOrdinal b := by
    unfold toOrdinal; omega
  omega

theorem toOrdinal_lt_of_pyDateLt {a b : PyDate} (ha : a.valid) (hb : b.valid)
    (h : pyDateLt a b = true) : toOrdinal a < toOrdinal b := by
  unfold pyDateLt at h
  simp only [Bool.or_eq_true, Bool.and_eq_true, beq_iff_eq,
    decide_eq_true_eq] at h
  rcases h with hy | ⟨hy, hm | ⟨hm, hd⟩⟩
  · exact toOrdinal_lt_of_year_lt ha hb hy
  · obtain ⟨_, _, ham1, _, _, had2⟩ := ha
    obtain ⟨_, _, _, hbm2, hbd1, _⟩ := hb
    unfold toOrdinal
    rw [hy]
    have h1 : daysBeforeMonth b.year a.month + daysInMonth b.year a.month =
        daysBeforeMonth b.year (a.month + 1) := rfl
    have h2 : daysBeforeMonth b.year (a.month + 1) ≤ daysBeforeMonth b.year b.month :=
      daysBeforeMonth_mono b.year (by omega)
    have had2' : a.day ≤ daysInMonth b.year a.month := by rwa [hy] at had2
    omega
  · unfold toOrdinal
    rw [hy, hm]
    omega

theorem pyDateLt_iff (a b : PyDate) :
    pyDateLt a b = true ↔
      (a.year < b.year ∨ (a.year = b.year ∧
        (a.month < b.month ∨ (a.month = b.month ∧ a.day < b.day)))) := by
  unfold pyDateLt
  simp [Bool.or_eq_true, Bool.and_eq_true, beq_iff_eq, decide_eq_true_eq]

theorem pyDateLt_of_toOrdinal_lt {a b : PyDate} (ha : a.valid) (hb : b.valid)
    (h : toOrdinal a < toOrdinal b) : pyDateLt a b = true := by
  by_contra hc
  rw [pyDateLt_iff] at hc
  rcases Nat.lt_trichotomy a.year b.year with h1 | h1 | h1
  · exact hc (Or.inl h1)
  · rcases Nat.lt_trichotomy a.month b.month with h2 | h2 | h2
    · exact hc (Or.inr ⟨h1, Or.inl h2⟩)
    · rcases Nat.lt_trichotomy a.day b.day with h3 | h3 | h3
      · exact hc (Or.inr ⟨h1, Or.inr ⟨h2, h3⟩⟩)
      · have hab : a = b := by cases a; cases b; simp_all
        subst hab; omega
      · have hba : pyDateLt b a = true :=
          (pyDateLt_iff b a).mpr (Or.inr ⟨h1.symm, Or.inr ⟨h2.symm, h3⟩⟩)
        have := toOrdinal_lt_of_pyDateLt hb ha hba
        omega
    · have hba : pyDateLt b a = true :=
        (pyDateLt_iff b a).mpr (Or.inr ⟨h1.symm, Or.inl h2⟩)
      have := toOrdinal_lt_of_pyDateLt hb ha hba
      omega
  · have := toOrdinal_lt_of_year_lt hb ha h1
    omega

/-!
Claims.
-/

/-- C3: the renewal-rule learner stores `(due - renewal_open).days` keyed by
library with the latest observation overwriting any prior rule; prediction
returns `due - offset` when a rule is stored and none when the library has
no rule; after observing a due date `D` with renewal opening at `D - 10`,
prediction for any due date returns that date minus 10. -/
theorem c3_renewal_rule_learner (store : RulesStore) (url : String)
    (today off D Dp d : Int) :
    (get_renewal_offset_days (update_rules store url off today) url
      = some off) ∧
    (store url = none → calculate_renewal_date store url d = none) ∧
    (calculate_renewal_date
        (update_rules store url (calculate_offset_from_dates D (D - 10)) today)
        url Dp = some (Dp - 10)) := by
  refine ⟨?_, ?_, ?_⟩
  · simp [get_renewal_offset_days, update_rules]
  · intro h
    simp [calculate_renewal_date, get_renewal_offset_days, h]
  · have h10 : D - (D - 10) = (10 : Int) := by omega
    simp [calculate_renewal_date, get_renewal_offset_days, update_rules,
      calculate_offset_from_dates, h10]

/-- Witness for C3 at a concrete store, library and dates. -/
theorem c3_renewal_rule_learner_witness :
    (emptyRules "https://www.bibkat.de/boehl/" = none) ∧
    (calculate_renewal_date emptyRules "https://www.bibkat.de/boehl/" 700000
      = none) ∧
    (get_renewal_offset_days
      (update_rules emptyRules "https://www.bibkat.de/boehl/" 10 739000)
      "https://www.bibkat.de/boehl/" = some 10) ∧
    (calculate_renewal_date
      (update_rules emptyRules "https://www.bibkat.de/boehl/"
        (calculate_offset_from_dates 739100 (739100 - 10)) 739000)
      "https://www.bibkat.de/boehl/" 739200 = some (739200 - 10)) := by
  have h := c3_renewal_rule_learner emptyRules "https://www.bibkat.de/boehl/"
    739000 10 739100 739200 700000
  exact ⟨rfl, h.2.1 rfl, h.1, h.2.2⟩

/-- C7: a login response with no logout marker, no account-page element, no
reader-content element, no known error container, but a login form, fails
with the "still on login page - credentials may be incorrect" diagnostic
rather than the generic unclear-response message. -/
theorem c7_still_on_login_page (r : LoginResponseView)
    (h1 : r.body_has_logout = false) (h2 : r.body_has_abmelden = false)
    (h3 : r.body_has_reader_view = false)
    (h4 : r.has_reader_account_div = false)
    (h5 : r.has_account_info_div = false)
    (h6 : r.has_reader_content_div = false)
    (h7 : r.has_reader_listing_div = false)
    (h8 : r.error_container_text = none)
    (h9 : r.has_login_form = true) :
    classify_login_response r = Except.error
      "Login failed: Still on login page - credentials may be incorrect" ∧
    ("Login failed: Still on login page - credentials may be incorrect" ≠
      "Login failed: Login response unclear - no success indicators found") := by
  constructor
  · unfold classify_login_response
    rw [h1, h2, h3, h4, h5, h6, h7, h8, h9]
    simp
  · decide

/-- Witness for C7 at a concrete login-response view. -/
theorem c7_still_on_login_page_witness :
    classify_login_response
      ⟨false, false, false, false, false, false, false, none, true⟩ =
      Except.error
        "Login failed: Still on login page - credentials may be incorrect" :=
  (c7_still_on_login_page
    ⟨false, false, false, false, false, false, false, none, true⟩
    rfl rfl rfl rfl rfl rfl rfl rfl rfl).1

/-- C8: the very first cycle performs the full detail fetch; a second cycle
fetches again iff at least 24 hours have passed, otherwise it keeps the
stored throttle timestamp and — because `items_to_fetch_details` is empty
without the flag — skips every detail fetch. -/
theorem c8_detail_fetch_throttle (t1 t2 : Int) (media : List MediaInfo) :
    ((detail_fetch_gate none t1).1 = true) ∧
    (t2 - t1 ≥ DETAIL_FETCH_INTERVAL →
      (detail_fetch_gate (detail_fetch_gate none t1).2 t2).1 = true) ∧
    (t2 - t1 < DETAIL_FETCH_INTERVAL →
      (detail_fetch_gate (detail_fetch_gate none t1).2 t2).1 = false ∧
      (detail_fetch_gate (detail_fetch_gate none t1).2 t2).2 = some t1) ∧
    (items_to_fetch_details false media = []) := by
  refine ⟨rfl, ?_, ?_, rfl⟩
  · intro h
    simp only [detail_fetch_gate]
    rw [if_pos h]
  · intro h
    simp only [detail_fetch_gate]
    rw [if_neg (by omega)]
    exact ⟨rfl, rfl⟩

/-- Witness for C8: cycles 25 hours apart both fetch, cycles 1 hour apart
only the first time. -/
theorem c8_detail_fetch_throttle_witness :
    ((detail_fetch_gate none 0).1 = true) ∧
    ((detail_fetch_gate (detail_fetch_gate none 0).2 90000).1 = true) ∧
    ((detail_fetch_gate (detail_fetch_gate none 0).2 3600).1 = false) ∧
    (items_to_fetch_details false [] = []) := by
  have h1 := c8_detail_fetch_throttle 0 90000 ([] : List MediaInfo)
  have h2 := c8_detail_fetch_throttle 0 3600 ([] : List MediaInfo)
  exact ⟨h1.1, h1.2.1 (by decide), (h2.2.2.1 (by decide)).1, h1.2.2.2⟩

/-- C9: every renewal call yields a structured result with a success flag
and a message; an exception raised during either step of the two-step
protocol — and an exception escaping `api.renew_media` into the
coordinator — is converted into a failure result whose message carries the
error text, and a success flag only ever comes with the confirmation
message. -/
theorem c9_renewal_errors_structured (modal : NetResult ModalResponse)
    (post : NetResult PostResponse) :
    (∀ e, renew_single_media (NetResult.raise e) post =
      { success := false, message := "Fehler bei der Verlängerung: " ++ e }) ∧
    (∀ e m, m.status = 200 → m.metaSuccess = true →
      (m.actions.find?
        (fun a => a.func == "renew" && a.method == "POST")).isSome = true →
      renew_single_media (NetResult.resp m) (NetResult.raise e) =
        { success := false,
          message := "Fehler bei der Verlängerung: " ++ e }) ∧
    (∀ e, coordinator_renew (NetResult.raise e) =
      { success := false, message := "Fehler bei der Verlängerung: " ++ e }) ∧
    ((renew_single_media modal post).success = true →
      renew_single_media modal post =
        { success := true, message := "Medium erfolgreich verlängert" }) := by
  refine ⟨fun e => rfl, ?_, fun e => rfl, ?_⟩
  · intro e m hs hmeta hfind
    obtain ⟨a, ha⟩ := Option.isSome_iff_exists.mp hfind
    simp [renew_single_media, hs, hmeta, ha]
  · intro h
    cases modal with
    | raise e => simp [renew_single_media] at h
    | resp m =>
      by_cases h200 : m.status = 200
      · cases hmeta : m.metaSuccess with
        | false => simp [renew_single_media, h200, hmeta] at h
        | true =>
          cases hfind : m.actions.find?
              (fun a => a.func == "renew" && a.method == "POST") with
          | none => simp [renew_single_media, h200, hmeta, hfind] at h
          | some a =>
            cases post with
            | raise e => simp [renew_single_media, h200, hmeta, hfind] at h
            | resp p =>
              by_cases hp : p.status = 200
              · cases hpm : p.metaSuccess with
                | false =>
                  simp [renew_single_media, h200, hmeta, hfind, hp, hpm] at h
                | true =>
                  simp [renew_single_media, h200, hmeta, hfind, hp, hpm]
              · simp [renew_single_media, h200, hmeta, hfind, hp] at h
      · simp [renew_single_media, h200] at h

/-- Witness for C9 at concrete protocol outcomes. -/
theorem c9_renewal_errors_structured_witness :
    (renew_single_media (NetResult.raise "TimeoutError")
        (NetResult.raise "unused") =
      { success := false,
        message := "Fehler bei der Verlängerung: " ++ "TimeoutError" }) ∧
    (renew_single_media
        (NetResult.resp ⟨200, true, [⟨"renew", "POST"⟩]⟩)
        (NetResult.raise "ServerDisconnectedError") =
      { success := false,
        message :=
          "Fehler bei der Verlängerung: " ++ "ServerDisconnectedError" }) ∧
    (coordinator_renew (NetResult.raise "ClientConnectorError") =
      { success := false,
        message := "Fehler bei der Verlängerung: " ++ "ClientConnectorError" }) := by
  have h := c9_renewal_errors_structured (NetResult.raise "TimeoutError")
    (NetResult.raise "unused")
  exact ⟨h.1 "TimeoutError",
    h.2.1 "ServerDisconnectedError" ⟨200, true, [⟨"renew", "POST"⟩]⟩
      rfl rfl (by decide),
    h.2.2.1 "ClientConnectorError"⟩

/-- The days-remaining value of _calculate_days_remaining is clamped at
zero. -/
theorem calculate_days_remaining_nonneg (today : PyDate) (t : RegexView) :
    0 ≤ (calculate_days_remaining today t).1 := by
  unfold calculate_days_remaining
  cases h : parse_german_date today t with
  | none => simp
  | some p =>
    simp only []
    exact le_max_left 0 (pyDateSubDays p today)

/-- The days-remaining component produced for a status element is
non-negative. -/
theorem extract_due_nonneg (today : PyDate) (st : Option StatusElem) :
    0 ≤ (extract_due today st).2.1 := by
  cases st with
  | none => simp [extract_due]
  | some s =>
    have hc := calculate_days_remaining_nonneg today s.dateTok
    simp only [extract_due]
    rcases h : calculate_days_remaining today s.dateTok with ⟨dr, iso⟩
    rw [h] at hc
    simpa using hc

/-- Field characterization of a successfully extracted media record. -/
theorem extract_media_info_fields (today : PyDate) (mgr : Option RulesStore)
    (base_url : String) (md5hex8 : String → String) (it : ItemElem)
    (mi : MediaInfo)
    (h : extract_media_info today mgr base_url md5hex8 it = some mi) :
    mi.due_date = (extract_due today it.status).1 ∧
    mi.days_remaining = (extract_due today it.status).2.1 ∧
    mi.due_date_iso = (extract_due today it.status).2.2 ∧
    mi.renewal_date_iso =
      (rules_renewal today mgr base_url (extract_due today it.status).2.2).1 ∧
    mi.renewable = it.renewAction.isSome ∧
    mi.is_renewable_now = (it.renewAction.isSome ||
      (rules_renewal today mgr base_url (extract_due today it.status).2.2).2) := by
  unfold extract_media_info at h
  rcases ht : extract_title base_url it with _ | ⟨title, durl⟩ <;> rw [ht] at h
  · simp at h
  · simp only [Option.some.injEq] at h
    subst h
    refine ⟨rfl, rfl, rfl, rfl, ?_, ?_⟩
    · cases it.renewAction <;> rfl
    · cases it.renewAction <;> simp [renew_triple]

/-- C10: the days-remaining computation never returns a negative value:
a parsed due date on or before today yields exactly `(0, that date)` —
so overdue items and items due today are indistinguishable by this field —
an unparseable text yields `(0, none)`, and consequently every extracted
media record has `days_remaining >= 0`. -/
theorem c10_days_remaining_clamped (today : PyDate) (t : RegexView)
    (mgr : Option RulesStore) (base_url : String) (md5hex8 : String → String)
    (it : ItemElem) (mi : MediaInfo) :
    (0 ≤ (calculate_days_remaining today t).1) ∧
    (∀ p, parse_german_date today t = some p →
      (toOrdinal p : Int) ≤ (toOrdinal today : Int) →
      calculate_days_remaining today t = (0, some p)) ∧
    (parse_german_date today t = none →
      calculate_days_remaining today t = (0, none)) ∧
    (extract_media_info today mgr base_url md5hex8 it = some mi →
      0 ≤ mi.days_remaining) := by
  refine ⟨calculate_days_remaining_nonneg today t, ?_, ?_, ?_⟩
  · intro p hp hle
    unfold calculate_days_remaining
    rw [hp]
    have hz : max 0 (pyDateSubDays p today) = 0 := by
      unfold pyDateSubDays
      omega
    simp [hz]
  · intro h
    unfold calculate_days_remaining
    rw [h]
  · intro h
    have hf := extract_media_info_fields today mgr base_url md5hex8 it mi h
    rw [hf.2.1]
    exact extract_due_nonneg today it.status

/-- C5: for a due text of the form "<day>. <MonthName|AbbreviatedMonth>"
(the day-month regex matches, the numeric regex does not), a successfully
parsed date has the month of the input's month token and the input's day;
the year starts at the current year and rolls forward exactly one year
when the current-year date lies strictly more than 60 days in the past, so
the returned date is never more than 60 days in the past. -/
theorem c5_parse_german_date_day_month (today : PyDate) (t : RegexView)
    (d : Nat) (mstr : String) (r : PyDate) (htoday : today.valid)
    (hdm : t.dm = some (d, mstr)) (hfull : t.full = none)
    (h : parse_german_date today t = some r) :
    (months_lookup mstr = some r.month) ∧ (r.day = d) ∧
    (pyDateSubDays today r ≤ 60) ∧
    (r.year = today.year ∨ r.year = today.year + 1) ∧
    (r.year = today.year + 1 →
      60 < pyDateSubDays today ⟨today.year, r.month, r.day⟩) ∧
    (60 < pyDateSubDays today ⟨today.year, r.month, r.day⟩ →
      r.year = today.year + 1) := by
  unfold parse_german_date at h
  rw [hdm] at h
  simp only [] at h
  cases hm : months_lookup mstr with
  | none =>
    rw [hm] at h
    simp [parse_full_date, hfull] at h
  | some m =>
    rw [hm] at h
    simp only [] at h
    unfold parse_day_month at h
    cases hmk : mkDate today.year m d with
    | none => rw [hmk] at h; simp at h
    | some parsed =>
      rw [hmk] at h
      simp only [] at h
      obtain ⟨hpe, hpv⟩ := mkDate_eq_some hmk
      by_cases hlt : pyDateLt parsed today = true
      · rw [if_pos hlt] at h
        by_cases h60 : pyDateSubDays today parsed > 60
        · rw [if_pos h60] at h
          obtain ⟨hre, hrv⟩ := mkDate_eq_some h
          subst hre
          subst hpe
          refine ⟨rfl, rfl, ?_, Or.inr rfl, fun _ => h60, fun _ => rfl⟩
          have hord : toOrdinal today <
              toOrdinal (⟨today.year + 1, m, d⟩ : PyDate) :=
            toOrdinal_lt_of_year_lt htoday hrv (Nat.lt_succ_self _)
          unfold pyDateSubDays
          omega
        · rw [if_neg h60] at h
          obtain rfl : parsed = r := Option.some.inj h
          subst hpe
          refine ⟨rfl, rfl, by omega, Or.inl rfl, ?_, ?_⟩
          · intro hy
            simp only [] at hy
            omega
          · intro hgt; exact absurd hgt h60
      · rw [if_neg hlt] at h
        obtain rfl : parsed = r := Option.some.inj h
        subst hpe
        have hord : ¬ (toOrdinal (⟨today.year, m, d⟩ : PyDate) <
            toOrdinal today) :=
          fun hc => hlt (pyDateLt_of_toOrdinal_lt hpv htoday hc)
        refine ⟨rfl, rfl, ?_, Or.inl rfl, ?_, ?_⟩
        · unfold pyDateSubDays; omega
        · intro hy
          simp only [] at hy
          omega
        · intro hgt
          simp only [] at hgt
          unfold pyDateSubDays at hgt
          omega

/-- Witness for C5: on 2026-10-12 the text "13. Jul." parses to
2027-07-13 (the current-year date 2026-07-13 lies 91 days in the past). -/
theorem c5_parse_german_date_day_month_witness :
    (PyDate.valid ⟨2026, 10, 12⟩) ∧
    (parse_german_date ⟨2026, 10, 12⟩ ⟨some (13, "Jul."), none⟩ =
      some ⟨2027, 7, 13⟩) ∧
    (months_lookup "Jul." = some 7) ∧
    (pyDateSubDays ⟨2026, 10, 12⟩ ⟨2027, 7, 13⟩ ≤ 60) ∧
    (60 < pyDateSubDays ⟨2026, 10, 12⟩ ⟨2026, 7, 13⟩) := by
  have h := c5_parse_german_date_day_month ⟨2026, 10, 12⟩
    ⟨some (13, "Jul."), none⟩ 13 "Jul." ⟨2027, 7, 13⟩
    (by decide) rfl rfl (by decide)
  exact ⟨by decide, by decide, h.1, h.2.2.1, h.2.2.2.2.1 rfl⟩

/-- Witness for C10: a due date two months past on 2026-10-12 clamps to
zero days remaining, unparseable text yields `(0, none)`, and a concrete
extracted item has non-negative days remaining. -/
theorem c10_days_remaining_clamped_witness :
    (calculate_days_remaining ⟨2026, 10, 12⟩ ⟨some (1, "Okt."), none⟩ =
      (0, some ⟨2026, 10, 1⟩)) ∧
    (calculate_days_remaining ⟨2026, 10, 12⟩ ⟨none, none⟩ = (0, none)) ∧
    (0 ≤ (⟨"42", "Buch", "", "", none, false, 0, none, none, false⟩ :
      MediaInfo).days_remaining) := by
  have h1 := c10_days_remaining_clamped ⟨2026, 10, 12⟩
    ⟨some (1, "Okt."), none⟩ none "https://www.bibkat.de/boehl/"
    (fun _ => "00000000")
    ⟨"media-42", "", "", "", some ("Buch", none), none, none, none, none⟩
    ⟨"42", "Buch", "", "", none, false, 0, none, none, false⟩
  have h2 := c10_days_remaining_clamped ⟨2026, 10, 12⟩ ⟨none, none⟩
    none "https://www.bibkat.de/boehl/" (fun _ => "00000000")
    ⟨"media-42", "", "", "", some ("Buch", none), none, none, none, none⟩
    ⟨"42", "Buch", "", "", none, false, 0, none, none, false⟩
  exact ⟨h1.2.1 ⟨2026, 10, 1⟩ (by decide) (by decide),
    h2.2.2.1 (by decide), h1.2.2.2 (by decide)⟩

/-- C1 counterexample: on 2026-10-12, with a stored 6-day renewal rule, an
item due 14. Okt. with no renew-action marker is extracted with
`renewable = false` but `is_renewable_now = true` (the rules block sets
`is_renewable_now` without touching `renewable`). -/
theorem c1_counterexample :
    extract_media_info ⟨2026, 10, 12⟩
      (some (update_rules emptyRules "https://www.bibkat.de/boehl/" 6 739901))
      "https://www.bibkat.de/boehl/" (fun _ => "00000000")
      ⟨"media-7", "", "", "", some ("Die unendliche Geschichte", none), none,
       none, some ⟨none, "14. Okt.", ⟨some (14, "Okt."), none⟩⟩, none⟩ =
    some { media_id := "7", title := "Die unendliche Geschichte",
           author := "", due_date := "14. Okt.",
           due_date_iso := some ⟨2026, 10, 14⟩, renewable := false,
           days_remaining := 2, detail_url := none,
           renewal_date_iso := some 739897, is_renewable_now := true } := by
  decide

/-- The rules block marks an item renewable-now only together with a
computed renewal date lying on or before today. -/
theorem rules_renewal_now_le (today : PyDate) (mgr : Option RulesStore)
    (base_url : String) (iso : Option PyDate)
    (h : (rules_renewal today mgr base_url iso).2 = true) :
    ∃ rd, (rules_renewal today mgr base_url iso).1 = some rd ∧
      rd ≤ (toOrdinal today : Int) := by
  unfold rules_renewal at *
  cases mgr with
  | none => simp at h
  | some rules =>
    cases iso with
    | none => simp at h
    | some due =>
      simp only [] at h ⊢
      cases hc : calculate_renewal_date rules base_url (toOrdinal due) with
      | none => rw [hc] at h; simp at h
      | some rd =>
        rw [hc] at h
        simp only [decide_eq_true_eq] at h
        exact ⟨rd, rfl, by omega⟩

/-- A detail page marks an item renewable-now only together with a parsed
renewal date lying on or before today. -/
theorem fetch_media_details_now_le (today : PyDate)
    (page : NetResult DetailPage)
    (h : (fetch_media_details today page).is_renewable_now = true) :
    ∃ rd, (fetch_media_details today page).renewal_date_iso = some rd ∧
      rd ≤ (toOrdinal today : Int) := by
  unfold fetch_media_details at *
  cases page with
  | raise e => simp at h
  | resp p =>
    by_cases hs : p.status ≠ 200
    · simp [hs] at h
    · simp only [hs, if_false, reduceIte] at h ⊢
      cases hrt : p.renewalText with
      | none => rw [hrt] at h; simp at h
      | some rv =>
        rw [hrt] at h
        cases rv with
        | none => simp at h
        | some t =>
          simp only [] at h ⊢
          cases hp : parse_german_date today t with
          | none => rw [hp] at h; simp at h
          | some pd =>
            rw [hp] at h
            simp only [decide_eq_true_eq] at h
            exact ⟨toOrdinal pd, rfl, by omega⟩

/-- C1 (amended): an extracted record has `is_renewable_now = true` with
`renewable = false` only when a stored renewal rule computed a renewal date
on or before today; with no rules manager, `renewable = false` forces
`is_renewable_now = false`; a renew-action marker implies both flags; and
merging detail-page results preserves `renewable` and only sets
`is_renewable_now` together with a renewal date on or before today. -/
theorem c1_amended_renewable_invariant (today : PyDate)
    (mgr : Option RulesStore) (base_url : String) (md5hex8 : String → String)
    (it : ItemElem) (mi : MediaInfo) (page : NetResult DetailPage)
    (h : extract_media_info today mgr base_url md5hex8 it = some mi) :
    (mi.renewable = false → mi.is_renewable_now = true →
      ∃ rd, mi.renewal_date_iso = some rd ∧ rd ≤ (toOrdinal today : Int)) ∧
    (mgr = none → mi.renewable = false → mi.is_renewable_now = false) ∧
    (it.renewAction.isSome = true →
      mi.renewable = true ∧ mi.is_renewable_now = true) ∧
    ((update_details mi (fetch_media_details today page)).renewable
      = mi.renewable) ∧
    ((update_details mi (fetch_media_details today page)).is_renewable_now
        = true →
      ∃ rd, (update_details mi
          (fetch_media_details today page)).renewal_date_iso = some rd ∧
        rd ≤ (toOrdinal today : Int)) := by
  have hf := extract_media_info_fields today mgr base_url md5hex8 it mi h
  obtain ⟨-, -, -, hrd, hren, hnow⟩ := hf
  refine ⟨?_, ?_, ?_, by simp [update_details], ?_⟩
  · intro h1 h2
    rw [hren] at h1
    rw [hnow, h1] at h2
    simp only [Bool.false_or] at h2
    rw [hrd]
    exact rules_renewal_now_le today mgr base_url _ h2
  · intro hm h1
    subst hm
    rw [hnow, hren] at *
    rw [h1]
    simp [rules_renewal]
  · intro ha
    constructor
    · rw [hren, ha]
    · rw [hnow, ha]
      simp
  · intro h1
    simp only [update_details] at h1 ⊢
    exact fetch_media_details_now_le today page h1

/-- Witness for C1 (amended): with no rules manager, a concrete item
without a renew action is extracted with both flags false. -/
theorem c1_amended_renewable_invariant_witness :
    (extract_media_info ⟨2026, 10, 12⟩ none "https://www.bibkat.de/aaa/"
      (fun _ => "abcdef01")
      ⟨"media-9", "", "", "", some ("Momo", none), none, none, none, none⟩ =
      some { media_id := "9", title := "Momo", author := "", due_date := "",
             due_date_iso := none, renewable := false, days_remaining := 0,
             detail_url := none, renewal_date_iso := none,
             is_renewable_now := false }) ∧
    ({ media_id := "9", title := "Momo", author := "", due_date := "",
       due_date_iso := none, renewable := false, days_remaining := 0,
       detail_url := none, renewal_date_iso := none,
       is_renewable_now := false } : MediaInfo).is_renewable_now = false := by
  refine ⟨by decide, ?_⟩
  exact (c1_amended_renewable_invariant ⟨2026, 10, 12⟩ none
    "https://www.bibkat.de/aaa/" (fun _ => "abcdef01")
    ⟨"media-9", "", "", "", some ("Momo", none), none, none, none, none⟩
    { media_id := "9", title := "Momo", author := "", due_date := "",
      due_date_iso := none, renewable := false, days_remaining := 0,
      detail_url := none, renewal_date_iso := none,
      is_renewable_now := false }
    (NetResult.raise "unused") (by decide)).2.1 rfl rfl

/-- If the first element satisfying `p` also satisfies `q`, it is also the
first element satisfying both. -/
theorem find?_and_of_find? {α : Type} (p q : α → Bool) {l : List α} {x : α}
    (h : l.find? p = some x) (hq : q x = true) :
    l.find? (fun y => p y && q y) = some x := by
  induction l with
  | nil => simp at h
  | cons a as ih =>
    by_cases hpa : p a = true
    · rw [List.find?_cons_of_pos _ hpa] at h
      obtain rfl := Option.some.inj h
      rw [List.find?_cons_of_pos _ (by simp [hpa, hq])]
    · rw [List.find?_cons_of_neg _ (by simp [hpa])] at h
      rw [List.find?_cons_of_neg _ (by simp [hpa])]
      exact ih h

/-- C4: renewing an item that is not renewable now, whose due date is
known, when the browser fallback is disabled or unavailable and the
library has no stored rule, returns the not-yet-renewable result with
`source = "fallback"` and renewal date `due_date - 6 days`. -/
theorem c4_renewal_fallback_six_days (last_media_list : List MediaInfo)
    (mgr : Option RulesStore) (base_url : String) (probe : BrowserProbe)
    (modal : NetResult ModalResponse) (post : NetResult PostResponse)
    (media_id : String) (mi : MediaInfo) (due : PyDate)
    (hfind : last_media_list.find? (fun m => m.media_id == media_id) = some mi)
    (hnow : mi.is_renewable_now = false)
    (hdue : mi.due_date_iso = some due)
    (hprobe : probe = BrowserProbe.disabled ∨ probe = BrowserProbe.unavailable)
    (hrule : ∀ rules, mgr = some rules →
      get_renewal_offset_days rules base_url = none) :
    renew_media last_media_list mgr base_url probe modal post media_id =
      { success := false,
        message := "Medium kann erst ab dem "
          ++ fmtOptDate (some ((toOrdinal due : Int) - 6))
          ++ " verlängert werden",
        renewal_date := some ((toOrdinal due : Int) - 6),
        renewal_date_iso := some ((toOrdinal due : Int) - 6),
        source := some "fallback" } := by
  have hfind2 : last_media_list.find?
      (fun m => m.media_id == media_id && m.due_date_iso.isSome) = some mi :=
    find?_and_of_find? _ _ hfind (by simp [hdue])
  have hex : extract_renewal_date last_media_list mgr base_url probe media_id =
      { success := true, renewal_date := some ((toOrdinal due : Int) - 6),
        renewal_date_iso := some ((toOrdinal due : Int) - 6),
        source := some "fallback", message := none } := by
    unfold extract_renewal_date
    have hmain : ∀ rules, mgr = some rules →
        (calculate_renewal_date rules base_url (toOrdinal due)) = none := by
      intro rules hr
      simp [calculate_renewal_date, hrule rules hr]
    rcases hprobe with hpr | hpr <;> subst hpr <;>
      cases mgr with
      | none => simp [hfind2, hdue]
      | some rules => simp [hfind2, hdue, hmain rules rfl]
  unfold renew_media
  rw [hfind]
  simp [hnow, hex]

/-- Witness for C4: a one-item media list due 2026-10-20 with no rules and
the browser disabled yields the fallback date 2026-10-14 (ordinal 739903). -/
theorem c4_renewal_fallback_six_days_witness :
    renew_media
      [{ media_id := "77", title := "Titel", author := "",
         due_date := "20. Okt.", due_date_iso := some ⟨2026, 10, 20⟩,
         renewable := true, days_remaining := 8, detail_url := none,
         renewal_date_iso := none, is_renewable_now := false }]
      none "https://www.bibkat.de/boehl/" BrowserProbe.disabled
      (NetResult.raise "unused") (NetResult.raise "unused") "77" =
    { success := false,
      message := "Medium kann erst ab dem "
        ++ fmtOptDate (some ((toOrdinal ⟨2026, 10, 20⟩ : Int) - 6))
        ++ " verlängert werden",
      renewal_date := some ((toOrdinal ⟨2026, 10, 20⟩ : Int) - 6),
      renewal_date_iso := some ((toOrdinal ⟨2026, 10, 20⟩ : Int) - 6),
      source := some "fallback" } :=
  c4_renewal_fallback_six_days
    [{ media_id := "77", title := "Titel", author := "",
       due_date := "20. Okt.", due_date_iso := some ⟨2026, 10, 20⟩,
       renewable := true, days_remaining := 8, detail_url := none,
       renewal_date_iso := none, is_renewable_now := false }]
    none "https://www.bibkat.de/boehl/" BrowserProbe.disabled
    (NetResult.raise "unused") (NetResult.raise "unused") "77"
    { media_id := "77", title := "Titel", author := "",
      due_date := "20. Okt.", due_date_iso := some ⟨2026, 10, 20⟩,
      renewable := true, days_remaining := 8, detail_url := none,
      renewal_date_iso := none, is_renewable_now := false } ⟨2026, 10, 20⟩
    (by decide) rfl rfl (Or.inl rfl) (fun rules hr => by cases hr)

/-- Marking a found-on list does not change the ids of the merged list. -/
theorem append_family_found_on_ids (l : List MergedMedia) (mid : String) :
    (append_family_found_on l mid).map (fun r => r.info.media_id) =
      l.map (fun r => r.info.media_id) := by
  induction l with
  | nil => rfl
  | cons a as ih =>
    unfold append_family_found_on
    split_ifs with h1 h2 <;> simp [ih]

/-- Marking a found-on list leaves records with a different id alone. -/
theorem append_family_found_on_filter_ne (l : List MergedMedia)
    (mid X : String) (hne : X ≠ mid) :
    (append_family_found_on l mid).filter (fun r => r.info.media_id == X) =
      l.filter (fun r => r.info.media_id == X) := by
  induction l with
  | nil => rfl
  | cons a as ih =>
    unfold append_family_found_on
    split_ifs with h1 h2
    · simp only [List.filter_cons, ih]
    · have h2e : a.info.media_id = mid := by simpa using h2
      have hax : a.info.media_id ≠ X := by
        rw [h2e]; exact fun hx => hne hx.symm
      rw [List.filter_cons_of_neg (by simp [hax]),
        List.filter_cons_of_neg (by simp [hax])]
    · simp only [List.filter_cons, ih]

/-- Marking a found-on list updates exactly the unique record carrying the
id. -/
theorem append_family_found_on_filter_eq (l : List MergedMedia)
    (mid : String) (r : MergedMedia)
    (hnd : (l.map (fun r => r.info.media_id)).Nodup)
    (hfil : l.filter (fun x => x.info.media_id == mid) = [r]) :
    (append_family_found_on l mid).filter
        (fun x => x.info.media_id == mid) =
      [{ r with found_on := r.found_on ++ ["family"] }] := by
  induction l with
  | nil => simp at hfil
  | cons a as ih =>
    simp only [List.map_cons, List.nodup_cons] at hnd
    obtain ⟨hna, hnd'⟩ := hnd
    unfold append_family_found_on
    split_ifs with h1 h2
    · have hmem : mid ∈ as.map (fun r => r.info.media_id) := by
        rcases List.any_eq_true.mp h1 with ⟨x, hx, hxid⟩
        simp only [beq_iff_eq] at hxid
        exact hxid ▸ List.mem_map_of_mem _ hx
      have hane : a.info.media_id ≠ mid := fun ha =>
        hna (by rw [ha]; exact hmem)
      rw [List.filter_cons_of_neg (by simp [hane])] at hfil
      rw [List.filter_cons_of_neg (by simp [hane])]
      exact ih hnd' hfil
    · rw [List.filter_cons_of_pos (by exact h2)] at hfil
      injection hfil with ha hb
      subst ha
      have h2x : (({ a with found_on := a.found_on ++ ["family"] } :
          MergedMedia).info.media_id == mid) = true := h2
      rw [List.filter_cons_of_pos (by exact h2x), hb]
    · exfalso
      rw [List.filter_cons_of_neg (by exact h2)] at hfil
      have hrr : r ∈ as.filter (fun x => x.info.media_id == mid) := by
        rw [hfil]; simp
      rw [List.mem_filter] at hrr
      exact h1 (List.any_eq_true.mpr ⟨r, hrr.1, hrr.2⟩)

/-- One family merge step keeps the merged ids duplicate-free. -/
theorem merge_family_step_nodup (acc : List MergedMedia) (m : MediaInfo)
    (h : (acc.map (fun r => r.info.media_id)).Nodup) :
    ((merge_family_step acc m).map (fun r => r.info.media_id)).Nodup := by
  unfold merge_family_step
  split_ifs with h1 h2
  · exact h
  · rw [append_family_found_on_ids]; exact h
  · have hnot : m.media_id ∉ acc.map (fun r => r.info.media_id) := by
      intro hmem
      rcases List.mem_map.mp hmem with ⟨x, hx, hid⟩
      exact h2 (List.any_eq_true.mpr ⟨x, hx, by simp [hid]⟩)
    simp [List.nodup_append, h, hnot]

/-- Folding any family listing into a duplicate-free merged list keeps it
duplicate-free. -/
theorem foldl_merge_nodup (family : List MediaInfo) :
    ∀ acc : List MergedMedia, (acc.map (fun r => r.info.media_id)).Nodup →
    ((family.foldl merge_family_step acc).map
      (fun r => r.info.media_id)).Nodup := by
  induction family with
  | nil => intro acc h; exact h
  | cons f fs ih =>
    intro acc h
    exact ih _ (merge_family_step_nodup acc f h)

/-- A family record with a different id leaves the unique record for an id
untouched. -/
theorem merge_family_step_filter_ne (acc : List MergedMedia) (m : MediaInfo)
    (X : String) (r : MergedMedia) (hne : m.media_id ≠ X)
    (hfil : acc.filter (fun x => x.info.media_id == X) = [r]) :
    (merge_family_step acc m).filter (fun x => x.info.media_id == X) =
      [r] := by
  unfold merge_family_step
  split_ifs with h1 h2
  · exact hfil
  · rw [append_family_found_on_filter_ne _ _ _ (fun hx => hne hx.symm)]
    exact hfil
  · rw [List.filter_append, hfil]
    simp [hne]

/-- A family record whose id is already present marks the unique record
carrying it. -/
theorem merge_family_step_filter_eq (acc : List MergedMedia) (f : MediaInfo)
    (r : MergedMedia) (hne : f.media_id ≠ "")
    (hnd : (acc.map (fun x => x.info.media_id)).Nodup)
    (hfil : acc.filter (fun x => x.info.media_id == f.media_id) = [r]) :
    (merge_family_step acc f).filter
        (fun x => x.info.media_id == f.media_id) =
      [{ r with found_on := r.found_on ++ ["family"] }] := by
  have hrmem : r ∈ acc ∧ (r.info.media_id == f.media_id) = true := by
    have hin : r ∈ acc.filter (fun x => x.info.media_id == f.media_id) := by
      rw [hfil]; simp
    simpa [List.mem_filter] using hin
  have hany : (acc.any fun x => x.info.media_id == f.media_id) = true :=
    List.any_eq_true.mpr ⟨r, hrmem.1, hrmem.2⟩
  unfold merge_family_step
  rw [if_neg hne, if_pos hany]
  exact append_family_found_on_filter_eq acc f.media_id r hnd hfil

/-- Filtering by the key of a member of a list with duplicate-free keys
returns exactly that member. -/
theorem filter_eq_singleton_of_nodup_keys {α : Type} (f : α → String) :
    ∀ (l : List α) (x : α), (l.map f).Nodup → x ∈ l →
      l.filter (fun y => f y == f x) = [x] := by
  intro l
  induction l with
  | nil => intro x _ hx; simp at hx
  | cons a as ih =>
    intro x hnd hx
    simp only [List.map_cons, List.nodup_cons] at hnd
    obtain ⟨hna, hnd'⟩ := hnd
    rcases List.mem_cons.mp hx with rfl | hx
    · rw [List.filter_cons_of_pos (by simp)]
      have hnil : as.filter (fun y => f y == f x) = [] := by
        rw [List.filter_eq_nil_iff]
        intro y hy hfy
        exact hna (by
          simp only [beq_iff_eq] at hfy
          exact hfy ▸ List.mem_map_of_mem f hy)
      rw [hnil]
    · have hfa : f a ≠ f x := fun he =>
        hna (he ▸ List.mem_map_of_mem f hx)
      rw [List.filter_cons_of_neg (by simp [hfa])]
      exact ih x hnd' hx

/-- Records whose id differs from every listed family record keep their
unique filtered entry through the whole fold. -/
theorem foldl_merge_filter_keep (l : List MediaInfo) :
    ∀ (acc : List MergedMedia) (X : String) (r : MergedMedia),
      (∀ y ∈ l, y.media_id ≠ X) →
      acc.filter (fun x => x.info.media_id == X) = [r] →
      (l.foldl merge_family_step acc).filter
        (fun x => x.info.media_id == X) = [r] := by
  induction l with
  | nil => intro acc X r _ hfil; exact hfil
  | cons a as ih =>
    intro acc X r hall hfil
    rw [List.foldl_cons]
    exact ih _ X r (fun y hy => hall y (List.mem_cons_of_mem a hy))
      (merge_family_step_filter_ne acc a X r (hall a (List.mem_cons_self a as))
        hfil)

/-- C2: merging a main-page listing and a family-page listing (each with
duplicate-free truthy ids) yields a merged list in which every media id
occurs at most once; an id seen on both pages keeps all attributes of the
main-page record and accumulates `found_on = ["main", "family"]`. -/
theorem c2_merge_dedup (main family : List MediaInfo)
    (hm : ((main.filter (fun x => !(x.media_id == ""))).map
      (fun x => x.media_id)).Nodup)
    (hf : ((family.filter (fun x => !(x.media_id == ""))).map
      (fun x => x.media_id)).Nodup) :
    (((get_borrowed_media_merge main family).map
      (fun r => r.info.media_id)).Nodup) ∧
    (∀ m ∈ main, ∀ f ∈ family, m.media_id ≠ "" → f.media_id = m.media_id →
      (get_borrowed_media_merge main family).filter
        (fun r => r.info.media_id == m.media_id) =
      [⟨m, ["main", "family"]⟩]) := by
  have hA0nd : (((main.filter (fun x => !(x.media_id == ""))).map
      (fun x => (⟨x, ["main"]⟩ : MergedMedia))).map
        (fun r => r.info.media_id)).Nodup := by
    rw [List.map_map]
    exact hm
  constructor
  · unfold get_borrowed_media_merge
    exact foldl_merge_nodup family _ hA0nd
  · intro m hmmem f hfmem hXne hfid
    have hq : (!(m.media_id == "")) = true := by simp [hXne]
    have hmf : m ∈ main.filter (fun x => !(x.media_id == "")) :=
      List.mem_filter.mpr ⟨hmmem, hq⟩
    have hkey := filter_eq_singleton_of_nodup_keys (fun x => x.media_id)
      (main.filter (fun x => !(x.media_id == ""))) m hm hmf
    have h0 : ((main.filter (fun x => !(x.media_id == ""))).map
        (fun x => (⟨x, ["main"]⟩ : MergedMedia))).filter
          (fun r => r.info.media_id == m.media_id) = [⟨m, ["main"]⟩] := by
      rw [List.filter_map]
      rw [show ((fun r : MergedMedia => r.info.media_id == m.media_id) ∘
          (fun x : MediaInfo => (⟨x, ["main"]⟩ : MergedMedia))) =
        (fun y : MediaInfo => y.media_id == m.media_id) from rfl]
      rw [hkey]
      rfl
    obtain ⟨l1, l2, hfam⟩ := List.append_of_mem hfmem
    subst hfam
    have hffil := hf
    rw [List.filter_append,
      List.filter_cons_of_pos (by simp [hfid, hXne]),
      List.map_append, List.map_cons, List.nodup_append] at hffil
    obtain ⟨hnd1, hnd2, hdisj⟩ := hffil
    have hl2 : ∀ y ∈ l2, y.media_id ≠ m.media_id := by
      intro y hy he
      apply (List.nodup_cons.mp hnd2).1
      rw [hfid]
      exact he ▸ List.mem_map_of_mem _
        (List.mem_filter.mpr ⟨hy, by simp [he, hXne]⟩)
    have hl1 : ∀ y ∈ l1, y.media_id ≠ m.media_id := by
      intro y hy he
      exact hdisj
        (List.mem_map_of_mem _ (List.mem_filter.mpr ⟨hy, by simp [he, hXne]⟩))
        (by simp [he, hfid])
    have hacc1 := foldl_merge_filter_keep l1 _ m.media_id ⟨m, ["main"]⟩ hl1 h0
    have hacc1nd := foldl_merge_nodup l1 _ hA0nd
    have hfil1 : ((l1.foldl merge_family_step
        ((main.filter (fun x => !(x.media_id == ""))).map
          (fun x => (⟨x, ["main"]⟩ : MergedMedia)))).filter
        (fun x => x.info.media_id == f.media_id)) = [⟨m, ["main"]⟩] := by
      rw [hfid]
      exact hacc1
    have hstep := merge_family_step_filter_eq _ f ⟨m, ["main"]⟩
      (by rw [hfid]; exact hXne) hacc1nd hfil1
    have hstep' : (merge_family_step (l1.foldl merge_family_step
        ((main.filter (fun x => !(x.media_id == ""))).map
          (fun x => (⟨x, ["main"]⟩ : MergedMedia)))) f).filter
        (fun x => x.info.media_id == m.media_id) =
        [⟨m, ["main", "family"]⟩] := by
      rw [← hfid]
      exact hstep
    have hfinal := foldl_merge_filter_keep l2 _ m.media_id _ hl2 hstep'
    unfold get_borrowed_media_merge
    rw [List.foldl_append, List.foldl_cons]
    exact hfinal

/-- Witness for C2: a main listing and family listing sharing id "5". -/
theorem c2_merge_dedup_witness :
    (((get_borrowed_media_merge
      [{ media_id := "5", title := "A", author := "a", due_date := "d",
         due_date_iso := none, renewable := true, days_remaining := 3,
         detail_url := none, renewal_date_iso := none,
         is_renewable_now := true }]
      [{ media_id := "5", title := "B", author := "b", due_date := "e",
         due_date_iso := none, renewable := false, days_remaining := 9,
         detail_url := none, renewal_date_iso := none,
         is_renewable_now := false }]).map
        (fun r => r.info.media_id)).Nodup) ∧
    ((get_borrowed_media_merge
      [{ media_id := "5", title := "A", author := "a", due_date := "d",
         due_date_iso := none, renewable := true, days_remaining := 3,
         detail_url := none, renewal_date_iso := none,
         is_renewable_now := true }]
      [{ media_id := "5", title := "B", author := "b", due_date := "e",
         due_date_iso := none, renewable := false, days_remaining := 9,
         detail_url := none, renewal_date_iso := none,
         is_renewable_now := false }]).filter
        (fun r => r.info.media_id == "5") =
      [⟨{ media_id := "5", title := "A", author := "a", due_date := "d",
          due_date_iso := none, renewable := true, days_remaining := 3,
          detail_url := none, renewal_date_iso := none,
          is_renewable_now := true }, ["main", "family"]⟩]) := by
  have h := c2_merge_dedup
    [{ media_id := "5", title := "A", author := "a", due_date := "d",
       due_date_iso := none, renewable := true, days_remaining := 3,
       detail_url := none, renewal_date_iso := none,
       is_renewable_now := true }]
    [{ media_id := "5", title := "B", author := "b", due_date := "e",
       due_date_iso := none, renewable := false, days_remaining := 9,
       detail_url := none, renewal_date_iso := none,
       is_renewable_now := false }]
    (by decide) (by decide)
  exact ⟨h.1, h.2
    { media_id := "5", title := "A", author := "a", due_date := "d",
      due_date_iso := none, renewable := true, days_remaining := 3,
      detail_url := none, renewal_date_iso := none,
      is_renewable_now := true } (by decide)
    { media_id := "5", title := "B", author := "b", due_date := "e",
      due_date_iso := none, renewable := false, days_remaining := 9,
      detail_url := none, renewal_date_iso := none,
      is_renewable_now := false } (by decide) (by decide) (by decide)⟩

/-- A "Konto Nr." header resets the account attribution for everything
after it, regardless of what came before. -/
theorem family_walk_split (today : PyDate) (mgr : Option RulesStore)
    (base_url : String) (md5hex8 : String → String) (l1 : List FamilyElem) :
    ∀ (cur : Option String) (l2 : List FamilyElem) (n : String),
      family_walk today mgr base_url md5hex8 cur
          (l1 ++ FamilyElem.header (some n) :: l2) =
        family_walk today mgr base_url md5hex8 cur l1 ++
          family_walk today mgr base_url md5hex8 (some n) l2 := by
  induction l1 with
  | nil => intro cur l2 n; simp [family_walk]
  | cons e es ih =>
    intro cur l2 n
    cases e with
    | header k =>
      simp only [List.cons_append, family_walk, List.append_eq, ih]
    | item isMsg el =>
      cases cur with
      | none => simp only [List.cons_append, family_walk, List.append_eq, ih]
      | some acct =>
        by_cases hmsg : isMsg = true
        · simp [family_walk, hmsg, ih]
        · cases hx : extract_media_info today mgr base_url md5hex8 el with
          | none => simp [family_walk, hmsg, hx, ih]
          | some mi =>
            by_cases hdd : mi.due_date ≠ ""
            · simp [family_walk, hmsg, hx, hdd, ih]
            · simp [family_walk, hmsg, hx, hdd, ih]

/-- With no account-setting header in sight, every produced record is
attributed to the current account and carries a due date. -/
theorem family_walk_owner (today : PyDate) (mgr : Option RulesStore)
    (base_url : String) (md5hex8 : String → String) :
    ∀ (l : List FamilyElem) (n : String),
      (∀ s, FamilyElem.header (some s) ∉ l) →
      ∀ out ∈ family_walk today mgr base_url md5hex8 (some n) l,
        out.owner_number = n ∧ out.info.due_date ≠ "" := by
  intro l
  induction l with
  | nil => intro n _ out hout; simp [family_walk] at hout
  | cons e es ih =>
    intro n hnh out hout
    cases e with
    | header k =>
      cases k with
      | some s => exact absurd (List.mem_cons_self _ _) (hnh s)
      | none =>
        simp only [family_walk] at hout
        exact ih n (fun s hs => hnh s (List.mem_cons_of_mem _ hs)) out hout
    | item isMsg el =>
      simp only [family_walk] at hout
      by_cases hmsg : isMsg = true
      · rw [if_pos hmsg] at hout
        exact ih n (fun s hs => hnh s (List.mem_cons_of_mem _ hs)) out hout
      · rw [if_neg hmsg] at hout
        cases hx : extract_media_info today mgr base_url md5hex8 el with
        | none =>
          rw [hx] at hout
          exact ih n (fun s hs => hnh s (List.mem_cons_of_mem _ hs)) out hout
        | some mi =>
          rw [hx] at hout
          simp only [] at hout
          by_cases hdd : mi.due_date ≠ ""
          · rw [if_pos hdd] at hout
            rcases List.mem_cons.mp hout with rfl | hout
            · exact ⟨rfl, hdd⟩
            · exact ih n (fun s hs => hnh s (List.mem_cons_of_mem _ hs))
                out hout
          · rw [if_neg hdd] at hout
            exact ih n (fun s hs => hnh s (List.mem_cons_of_mem _ hs))
              out hout

/-- C6: the family-page loan parser walks elements in document order,
attributes each item to the most recent "Konto Nr." header, and omits
items lacking a due date; on a two-section page whose first section holds
one item with a due date and whose second holds one without, it returns
exactly one record, attributed to the first account and none to the
second. -/
theorem c6_family_walk_attribution (today : PyDate) (mgr : Option RulesStore)
    (base_url : String) (md5hex8 : String → String) :
    (∀ (cur : Option String) (l1 l2 : List FamilyElem) (n : String),
      family_walk today mgr base_url md5hex8 cur
          (l1 ++ FamilyElem.header (some n) :: l2) =
        family_walk today mgr base_url md5hex8 cur l1 ++
          family_walk today mgr base_url md5hex8 (some n) l2) ∧
    (∀ (n : String) (l : List FamilyElem),
      (∀ s, FamilyElem.header (some s) ∉ l) →
      ∀ out ∈ family_walk today mgr base_url md5hex8 (some n) l,
        out.owner_number = n ∧ out.info.due_date ≠ "") ∧
    (∀ hash : String → String,
      family_walk ⟨2026, 10, 12⟩ none "https://www.bibkat.de/boehl/" hash
        none
        [FamilyElem.header (some "689"),
         FamilyElem.item false ⟨"media-1", "", "", "",
           some ("Erstes Buch", none), none, none,
           some ⟨none, "20. Okt.", ⟨some (20, "Okt."), none⟩⟩, none⟩,
         FamilyElem.header (some "701"),
         FamilyElem.item false ⟨"media-2", "", "", "",
           some ("Zweites Buch", none), none, none, none, none⟩] =
      [⟨⟨"1", "Erstes Buch", "", "20. Okt.", some ⟨2026, 10, 20⟩, false, 8,
         none, none, false⟩, "family", "Leser 689", "689"⟩]) := by
  refine ⟨fun cur l1 l2 n => family_walk_split today mgr base_url md5hex8
    l1 cur l2 n,
    fun n l => family_walk_owner today mgr base_url md5hex8 l n, ?_⟩
  intro hash
  rfl

/-- Witness for C6 at a concrete hash function and section list. -/
theorem c6_family_walk_attribution_witness :
    (family_walk ⟨2026, 10, 12⟩ none "https://www.bibkat.de/boehl/"
      (fun _ => "00000000") none
      [FamilyElem.header (some "689"),
       FamilyElem.item false ⟨"media-1", "", "", "",
         some ("Erstes Buch", none), none, none,
         some ⟨none, "20. Okt.", ⟨some (20, "Okt."), none⟩⟩, none⟩,
       FamilyElem.header (some "701"),
       FamilyElem.item false ⟨"media-2", "", "", "",
         some ("Zweites Buch", none), none, none, none, none⟩] =
      [⟨⟨"1", "Erstes Buch", "", "20. Okt.", some ⟨2026, 10, 20⟩, false, 8,
         none, none, false⟩, "family", "Leser 689", "689"⟩]) ∧
    ((⟨⟨"1", "Erstes Buch", "", "20. Okt.", some ⟨2026, 10, 20⟩, false, 8,
        none, none, false⟩, "family", "Leser 689", "689"⟩ :
      PageMedia).owner_number = "689") := by
  constructor
  · exact (c6_family_walk_attribution ⟨2026, 10, 12⟩ none
      "https://www.bibkat.de/boehl/" (fun _ => "00000000")).2.2
      (fun _ => "00000000")
  · exact ((c6_family_walk_attribution ⟨2026, 10, 12⟩ none
      "https://www.bibkat.de/boehl/" (fun _ => "00000000")).2.1 "689"
      [FamilyElem.item false ⟨"media-1", "", "", "",
        some ("Erstes Buch", none), none, none,
        some ⟨none, "20. Okt.", ⟨some (20, "Okt."), none⟩⟩, none⟩]
      (fun s => by simp)
      ⟨⟨"1", "Erstes Buch", "", "20. Okt.", some ⟨2026, 10, 20⟩, false, 8,
        none, none, false⟩, "family", "Leser 689", "689"⟩ (by decide)).1
